import Mathlib

/-!
# Verification of the slide rasterization and annotation-overlay engine

Shallow embedding of `src/main.py`: a FastAPI service that converts a
presentation into one raster image per slide (`draw_slide_content`,
`convert_ppt`) and composites accumulated text comments onto a preserved
base image (`overlay_comments`, `add_comment`, `get_comments`).

Python strings are modelled as lists of characters (`PyStr`); Python's
floor division `//` on possibly-negative ints is `Int.fdiv`; the in-memory
`comments_store` dict and the two on-disk image directories are modelled
as partial maps from the slide number to their contents.

The imaging library (PIL) is an external collaborator.  It is modelled by:
* `Img` — a raster: width, height and a pixel function;
* `Blob` — an encoded image payload as seen by `PIL.Image.open`, which per
  PIL's documentation is lazy: `open` only parses the header, the pixel
  data is decoded at the first pixel operation (here: `resize`).  A payload
  can therefore fail at open time (`badHeader` — `IOError`) or only later,
  at load time (`lazyBody` — `OSError`, which in Python 3 is the same class
  as `IOError`, but is raised outside the `try` block of the source);
* a glyph model parameter `GlyphModel` for `ImageDraw.text`: the exact
  pixels of rendered text are font-dependent and not part of any contract,
  but text drawing never changes the size of the image it draws on.
-/

/-- A Python string: an ordered sequence of characters. -/
abbrev PyStr : Type := List Char

/-- `str.strip()`: remove leading and trailing whitespace. -/
def pyStrip (s : PyStr) : PyStr :=
  ((s.dropWhile Char.isWhitespace).reverse.dropWhile Char.isWhitespace).reverse

/-- `str.lower()`: lowercase each character. -/
def pyLower (s : PyStr) : PyStr :=
  s.map Char.toLower

/-- `s.endswith(t)`: `t` is a suffix of `s`. -/
def pyEndsWith (s t : PyStr) : Bool :=
  List.isSuffixOf t s

/-- An 8-bit RGBA color.  PIL "RGB" pixels are represented with `a = 255`. -/
@[ext] structure Color where
  r : Nat
  g : Nat
  b : Nat
  a : Nat
deriving DecidableEq

def whiteColor : Color := ⟨255, 255, 255, 255⟩
def blackColor : Color := ⟨0, 0, 0, 255⟩
/-- The fill `(255, 0, 0, 255)` used for comment text. -/
def redColor : Color := ⟨255, 0, 0, 255⟩
/-- The fill `(255, 255, 255, 0)` of the fresh transparent overlay. -/
def transparentWhite : Color := ⟨255, 255, 255, 0⟩

/-- A raster image: dimensions and a pixel function (junk off-canvas). -/
@[ext] structure Img where
  w : Nat
  h : Nat
  px : Nat → Nat → Color

/-- `Image.new(mode, (w, h), color)`: a solid canvas. -/
def newImg (w h : Nat) (c : Color) : Img :=
  ⟨w, h, fun _ _ => c⟩

/-- `img.convert("RGBA")` on an RGB image: same pixels, alpha set to 255. -/
def convertRGBA (i : Img) : Img :=
  ⟨i.w, i.h, fun x y => { i.px x y with a := 255 }⟩

/-- `img.convert("RGB")`: flatten to an opaque raster (alpha forced to 255). -/
def convertRGB (i : Img) : Img :=
  ⟨i.w, i.h, fun x y => { i.px x y with a := 255 }⟩

/-- `img.resize((w, h))` pixel sampling, nearest-neighbour model (the exact
resampling filter is an implementation choice, not a contract; only the
output dimensions matter to the properties below). -/
def resizeImg (src : Img) (w h : Nat) : Img :=
  ⟨w, h, fun x y => src.px (x * src.w / w) (y * src.h / h)⟩

/-- `base.paste(src, (x, y))`: draw `src` over `base` at the given offset,
clipped to `base`'s canvas; the base image keeps its size. -/
def paste (base : Img) (src : Img) (pos : Int × Int) : Img :=
  ⟨base.w, base.h, fun x y =>
    let sx : Int := (x : Int) - pos.1
    let sy : Int := (y : Int) - pos.2
    if 0 ≤ sx ∧ sx < (src.w : Int) ∧ 0 ≤ sy ∧ sy < (src.h : Int) then
      src.px sx.toNat sy.toNat
    else base.px x y⟩

/-- Pixel effect of `ImageDraw.text`: font-dependent glyph rendering,
abstracted as a parameter of the whole development. -/
def GlyphModel : Type :=
  Img → Int × Int → PyStr → Color → Nat → Nat → Color

/-- `draw.text(pos, s, fill, font)`: draws glyphs in place; the image size
never changes, the pixels change according to the glyph model. -/
def drawText (g : GlyphModel) (img : Img) (pos : Int × Int) (s : PyStr) (c : Color) : Img :=
  ⟨img.w, img.h, g img pos s c⟩

/-- A glyph model that draws nothing (used for concrete evaluations). -/
def constGlyphs : GlyphModel := fun img _ _ _ => img.px

/-- Python exception classes raised by the imaging calls.  In Python 3,
`IOError` is an alias of `OSError`, so `except IOError` catches `osError`. -/
inductive PyErr where
  | osError
  | valueError
deriving DecidableEq

/-- An encoded image payload as handed to `PIL.Image.open(BytesIO(...))`.
`Image.open` is lazy: it parses only the header; the pixel data is decoded
at the first pixel operation.  `badHeader` fails at open time, `lazyBody`
opens fine but fails when the data is first needed (at `resize`). -/
inductive Blob where
  | decodable (i : Img)
  | badHeader
  | lazyBody (i : Img)

/-- An open PIL image handle: the pixels, plus whether the deferred body
decode will fail at first use. -/
structure PilImage where
  pixels : Img
  loadFails : Bool

/-- `Image.open(BytesIO(blob))`: header parse only (lazy decode). -/
def pilOpen : Blob → Except PyErr PilImage
  | .decodable i => .ok ⟨i, false⟩
  | .badHeader => .error .osError
  | .lazyBody i => .ok ⟨i, true⟩

/-- `pil_img.resize((w, h))`: forces the deferred body decode, then
resamples.  A truncated body surfaces its `OSError` here, not at `open`. -/
def pilResize (p : PilImage) (w h : Nat) : Except PyErr Img :=
  if p.loadFails then .error .osError else .ok (resizeImg p.pixels w h)

/-- A text run (`run.text`). -/
structure Run where
  text : PyStr

/-- A paragraph: its ordered runs. -/
structure Paragraph where
  runs : List Run

/-- A text frame: its ordered paragraphs. -/
structure TextFrame where
  paragraphs : List Paragraph

/-- A python-pptx shape as consumed by `draw_slide_content`: the numeric
shape-type tag (13 = picture), the image payload, the text frame, and the
placement fields in EMU.  Per the OOXML schema, `left`/`top` may be
negative (`ST_Coordinate`) while `width`/`height` are non-negative
(`ST_PositiveCoordinate`). -/
structure Shape where
  shape_type : Nat
  image : Blob
  has_text_frame : Bool
  text_frame : TextFrame
  left : Int
  top : Int
  width : Nat
  height : Nat

/-- A slide: its ordered shapes. -/
structure Slide where
  shapes : List Shape

/-- A parsed presentation: nominal EMU canvas size and the slides. -/
structure Presentation where
  slide_width : Nat
  slide_height : Nat
  slides : List Slide

/-- `"".join(run.text for run in paragraph.runs)`. -/
def paraText (p : Paragraph) : PyStr :=
  (p.runs.map Run.text).flatten

/-- The text-accumulation loop of `draw_slide_content`: paragraphs whose
text strips to empty are dropped, the rest are joined with `"\n"`. -/
def frameText (tf : TextFrame) : PyStr :=
  tf.paragraphs.foldl (fun text p =>
    let pt := paraText p
    if pyStrip pt = ([] : List Char) then text else text ++ pt ++ ['\n']) ([] : List Char)

/-- The body of the `for shape in slide.shapes` loop of
`draw_slide_content`.  The accumulator carries the canvas being painted
and the warnings recorded so far (each `logger.warning` records the caught
exception).  Only the `try` block around `image.blob` / `Image.open`
catches (`except IOError`); the division by 9525, `resize` and `paste`
run outside it, so their exceptions propagate. -/
def drawShape (g : GlyphModel) (acc : Img × List PyErr) (shape : Shape) :
    Except PyErr (Img × List PyErr) :=
  if shape.shape_type = 13 then
    match pilOpen shape.image with
    | .error e =>
      if e = .osError then .ok (acc.1, acc.2 ++ [e])
      else .error e
    | .ok pimg =>
      match pilResize pimg (shape.width / 9525) (shape.height / 9525) with
      | .error e => .error e
      | .ok resized =>
        .ok (paste acc.1 resized (Int.fdiv shape.left 9525, Int.fdiv shape.top 9525), acc.2)
  else if shape.has_text_frame then
    if pyStrip (frameText shape.text_frame) = ([] : List Char) then .ok acc
    else
      .ok (drawText g acc.1 (Int.fdiv shape.left 9525, Int.fdiv shape.top 9525)
        (frameText shape.text_frame) blackColor, acc.2)
  else .ok acc

/-- The shape loop from a given accumulator. -/
def drawShapesFrom (g : GlyphModel) (acc : Img × List PyErr) :
    List Shape → Except PyErr (Img × List PyErr)
  | [] => .ok acc
  | s :: rest =>
    match drawShape g acc s with
    | .error e => .error e
    | .ok acc' => drawShapesFrom g acc' rest

/-- `draw_slide_content(slide, width, height, ...)`: paint the shapes in
list order onto a solid white canvas; returns the painted canvas and the
recorded warnings, or the first uncaught exception. -/
def draw_slide_content (g : GlyphModel) (slide : Slide) (width height : Nat) :
    Except PyErr (Img × List PyErr) :=
  drawShapesFrom g (newImg width height whiteColor, []) slide.shapes

/-- Per-pixel source-over alpha blending as performed by
`Image.alpha_composite`: a fully transparent top pixel leaves the bottom
pixel untouched, a fully opaque top pixel replaces it, and partial alpha
blends with 8-bit integer source-over arithmetic.  Only the two exact
cases are exercised by this program (the overlay starts fully transparent
and comment text is drawn with alpha 255). -/
def compositePix (bottom top : Color) : Color :=
  if top.a = 0 then bottom
  else if top.a = 255 then top
  else
    let outA := top.a * 255 + bottom.a * (255 - top.a)
    ⟨(top.r * top.a * 255 + bottom.r * bottom.a * (255 - top.a)) / outA,
     (top.g * top.a * 255 + bottom.g * bottom.a * (255 - top.a)) / outA,
     (top.b * top.a * 255 + bottom.b * bottom.a * (255 - top.a)) / outA,
     outA / 255⟩

/-- `Image.alpha_composite(bottom, top)` (the two images have equal size
wherever this program calls it). -/
def alphaComposite (bottom top : Img) : Img :=
  ⟨bottom.w, bottom.h, fun x y => compositePix (bottom.px x y) (top.px x y)⟩

/-- The `for comment in comments` loop of `overlay_comments`: draw each
comment in red at x = 10, advancing `y_offset` by 20 per entry. -/
def overlayLoop (g : GlyphModel) (over : Img) (yOffset : Int) :
    List PyStr → Img
  | [] => over
  | c :: rest =>
    overlayLoop g (drawText g over (10, yOffset) c redColor) (yOffset + 20) rest

/-- `overlay_comments(slide_image_path, comments)`: re-read the base image
(PNG decode of the stored base raster), convert a copy to RGBA, render the
whole comment list onto a fresh fully transparent overlay, alpha-composite,
and flatten back to RGB. -/
def overlay_comments (g : GlyphModel) (base : Img) (comments : List PyStr) : Img :=
  let img := convertRGBA base
  let over := overlayLoop g (newImg img.w img.h transparentWhite) 10 comments
  convertRGB (alphaComposite img over)

/-- The process-wide session state: the two on-disk image directories
(`ORIGINAL_DIR` holding the base images, `OUTPUT_DIR` holding the served
images, both keyed by slide number as in `slide_{n}.png`) and the
in-memory `comments_store` dict (`none` = key absent). -/
structure ServerState where
  originalDir : Int → Option Img
  outputDir : Int → Option Img
  comments_store : Int → Option (List PyStr)

/-- A state with empty directories and an empty comment store. -/
def emptyState : ServerState :=
  ⟨fun _ => none, fun _ => none, fun _ => none⟩

/-- An exception raised inside the body of the `add_comment` handler's
`try` block.  The only one this model can raise is the
`HTTPException(status_code=404, detail="Slide not found")` for a missing
base image. -/
inductive CaughtExc where
  | httpNotFound
deriving DecidableEq

/-- Observable response of the `add_comment` endpoint.  The handler wraps
its whole body in `try: ... except Exception as e`, and FastAPI's
`HTTPException` subclasses `Exception` — so the 404 raised inside the
`try` for a missing base image is caught by the handler's own `except`
and re-raised as `HTTPException(status_code=500,
detail=f"Internal Server Error: ...")`.  The caller therefore observes a
500 whose detail embeds the caught exception, never the 404 itself;
`serverError` records which exception was caught and wrapped. -/
inductive CommentResponse where
  | ok (updatedImageUrl : PyStr)
  | serverError (caught : CaughtExc)

/-- HTTP status code of an `add_comment` response. -/
def CommentResponse.status : CommentResponse → Nat
  | .ok _ => 200
  | .serverError _ => 500

/-- `f"/slides/slide_{n}.png"` for an `int` slide number. -/
def slidePath (n : Int) : PyStr :=
  ("/slides/slide_".toList) ++ (toString n).toList ++ (".png".toList)

/-- `f"/slides/slide_{i+1}.png"` for the 0-based index `i` of the URL list
returned by `convert_ppt`. -/
def slideUrlNat (i : Nat) : PyStr :=
  ("/slides/slide_".toList) ++ (toString (i + 1)).toList ++ (".png".toList)

/-- The `add_comment` endpoint: when the base image for the slide number
does not exist, the body raises `HTTPException(404)`, which the handler's
own `except Exception` catches and re-raises as a 500 (see
`CommentResponse`); otherwise append the comment to the store, overlay
the full accumulated list onto the original base image, and replace the
served image for that slide. -/
def add_comment (g : GlyphModel) (st : ServerState) (slide_number : Int)
    (comment : PyStr) : ServerState × CommentResponse :=
  match st.originalDir slide_number with
  | none => (st, .serverError .httpNotFound)
  | some orig =>
    let log := ((st.comments_store slide_number).getD []) ++ [comment]
    let updated := overlay_comments g orig log
    ({ originalDir := st.originalDir,
       outputDir := fun n => if n = slide_number then some updated else st.outputDir n,
       comments_store := fun n => if n = slide_number then some log else st.comments_store n },
     .ok (slidePath slide_number))

/-- The `get_comments` endpoint: `comments_store.get(slide_number, [])`. -/
def get_comments (st : ServerState) (slide_number : Int) : List PyStr :=
  (st.comments_store slide_number).getD []

/-- Response of the `convert_ppt` endpoint: 400 on extension-check failure,
500 (`HTTPException` with message and trace) on an uncaught exception,
otherwise `{"slideCount": ..., "imageUrls": [...]}`. -/
inductive ConvertResponse where
  | badRequest
  | serverError (e : PyErr)
  | ok (slideCount : Nat) (imageUrls : List PyStr)

/-- The `for idx, slide in enumerate(prs.slides, start=1)` loop of
`convert_ppt`: rasterize each slide into `ORIGINAL_DIR` and copy it into
`OUTPUT_DIR`; an uncaught exception stops the loop there, leaving both
directories partially populated. -/
def convertSlides (g : GlyphModel) (w h : Nat) :
    List Slide → Int → (Int → Option Img) → (Int → Option Img) →
    ((Int → Option Img) × (Int → Option Img) × Option PyErr)
  | [], _, orig, out => (orig, out, none)
  | s :: rest, idx, orig, out =>
    match draw_slide_content g s w h with
    | .error e => (orig, out, some e)
    | .ok (img, _) =>
      convertSlides g w h rest (idx + 1)
        (fun n => if n = idx then some img else orig n)
        (fun n => if n = idx then some img else out n)

/-- The `convert_ppt` endpoint on an upload that parsed to `prs`:
reject non-`.pptx` filenames (case-insensitively) before touching any
state; otherwise clear both image directories, derive the fixed canvas
size once from the presentation's nominal size, rasterize every slide,
and only after the whole loop succeeds clear the comment store.  A
mid-loop exception surfaces as a 500 with the comment store untouched
and the directories partially repopulated. -/
def convert_ppt (g : GlyphModel) (st : ServerState) (filename : PyStr)
    (prs : Presentation) : ServerState × ConvertResponse :=
  if pyEndsWith (pyLower filename) (".pptx".toList) = false then
    (st, .badRequest)
  else
    match convertSlides g (prs.slide_width / 9525) (prs.slide_height / 9525)
      prs.slides 1 (fun _ => none) (fun _ => none) with
    | (orig, out, some e) =>
      ({ originalDir := orig, outputDir := out, comments_store := st.comments_store },
       .serverError e)
    | (orig, out, none) =>
      ({ originalDir := orig, outputDir := out, comments_store := fun _ => none },
       .ok prs.slides.length ((List.range prs.slides.length).map slideUrlNat))

/-! ## Helper lemmas -/

/-- Compositing a fully transparent overlay onto an image is the identity. -/
theorem alphaComposite_transparent (I : Img) :
    alphaComposite I (newImg I.w I.h transparentWhite) = I := by
  show Img.mk I.w I.h _ = I
  have hpx : (fun x y => compositePix (I.px x y) ((newImg I.w I.h transparentWhite).px x y))
      = I.px := by
    funext x y
    simp [newImg, compositePix, transparentWhite]
  rw [hpx]

/-- Overlaying an empty comment list is just RGBA augmentation followed by
the RGB flatten. -/
theorem overlay_comments_nil (g : GlyphModel) (B : Img) :
    overlay_comments g B [] = convertRGB (convertRGBA B) := by
  show convertRGB (alphaComposite (convertRGBA B)
    (newImg (convertRGBA B).w (convertRGBA B).h transparentWhite)) = _
  rw [alphaComposite_transparent]

/-! ## Claims -/

/-- C8: the overlay operation never fails on an empty comment log: for every
base image `B`, `overlay_comments g B []` is defined (total) and equals `B`
after the flatten-to-opaque step; for an opaque RGB base (every pixel has
alpha 255, which is how the rasterizer produces base images) the result is
identical to `B`. -/
theorem overlay_comments_empty_log (g : GlyphModel) (B : Img) :
    overlay_comments g B [] = convertRGB (convertRGBA B) ∧
    ((∀ x y, (B.px x y).a = 255) → overlay_comments g B [] = B) := by
  refine ⟨overlay_comments_nil g B, fun hA => ?_⟩
  rw [overlay_comments_nil g B]
  show Img.mk B.w B.h _ = B
  have hpx : (fun x y => { (convertRGBA B).px x y with a := 255 }) = B.px := by
    funext x y
    have := hA x y
    cases hbp : B.px x y with
    | mk r gg b a =>
      rw [hbp] at this
      simp [convertRGBA, hbp]
      exact this.symm
  rw [hpx]

/-- Witness for C8 at a concrete 1×1 opaque white base image. -/
theorem overlay_comments_empty_log_witness :
    overlay_comments constGlyphs (newImg 1 1 whiteColor) [] = newImg 1 1 whiteColor :=
  (overlay_comments_empty_log constGlyphs (newImg 1 1 whiteColor)).2 (fun _ _ => rfl)

/-- C3: evaluating the missing-slide path at the failing input
`add_comment(slide=99, "x")` on the empty session.  The claim (and the
spec, and the code's own `raise HTTPException(404, "Slide not found")`)
call for a 404, but the handler's blanket `except Exception` catches that
very exception and re-raises it as a 500, so the caller observes status
500, not 404.  The state is indeed left entirely unchanged and the
comment log for slide 99 stays absent. -/
theorem add_comment_missing_slide_500_bug :
    add_comment constGlyphs emptyState 99 ("x".toList)
      = (emptyState, CommentResponse.serverError CaughtExc.httpNotFound) ∧
    (add_comment constGlyphs emptyState 99 ("x".toList)).2.status = 500 ∧
    (add_comment constGlyphs emptyState 99 ("x".toList)).2.status ≠ 404 ∧
    get_comments (add_comment constGlyphs emptyState 99 ("x".toList)).1 99 = [] :=
  ⟨rfl, rfl, by decide, rfl⟩

/-- On an existing slide, `add_comment` reduces to its success branch. -/
theorem add_comment_some (g : GlyphModel) (st : ServerState) (n : Int)
    (c : PyStr) (B : Img) (h : st.originalDir n = some B) :
    add_comment g st n c =
      ({ originalDir := st.originalDir,
         outputDir := fun m => if m = n then
             some (overlay_comments g B (((st.comments_store n).getD []) ++ [c]))
           else st.outputDir m,
         comments_store := fun m => if m = n then
             some (((st.comments_store n).getD []) ++ [c])
           else st.comments_store m },
       CommentResponse.ok (slidePath n)) := by
  unfold add_comment
  rw [h]

/-- C9: the overlay operation never mutates the base image.  `add_comment`
on an existing slide works on an alpha-augmented copy of the base image
(last conjunct: the overlay result is built from `convertRGBA` of the base,
composited and flattened), keeps `ORIGINAL_DIR` — every stored base image —
exactly as it was, and replaces only the served image of that slide. -/
theorem add_comment_preserves_base (g : GlyphModel) (st : ServerState)
    (n : Int) (c : PyStr) (B : Img) (h : st.originalDir n = some B) :
    ((add_comment g st n c).1.originalDir = st.originalDir) ∧
    ((add_comment g st n c).1.originalDir n = some B) ∧
    (∀ m, m ≠ n → (add_comment g st n c).1.outputDir m = st.outputDir m) ∧
    ((add_comment g st n c).1.outputDir n =
      some (overlay_comments g B (((st.comments_store n).getD []) ++ [c]))) ∧
    (overlay_comments g B (((st.comments_store n).getD []) ++ [c]) =
      convertRGB (alphaComposite (convertRGBA B)
        (overlayLoop g (newImg (convertRGBA B).w (convertRGBA B).h transparentWhite) 10
          (((st.comments_store n).getD []) ++ [c])))) := by
  rw [add_comment_some g st n c B h]
  refine ⟨rfl, h, fun m hm => ?_, ?_, rfl⟩
  · simp only [if_neg hm]
  · simp

/-- Witness for C9: one comment on slide 1 of a session whose base image
for slide 1 is a 1×1 white canvas. -/
theorem add_comment_preserves_base_witness :
    ((add_comment constGlyphs
        { originalDir := fun m => if m = 1 then some (newImg 1 1 whiteColor) else none,
          outputDir := fun m => if m = 1 then some (newImg 1 1 blackColor) else none,
          comments_store := fun _ => none } 1 ("hi".toList)).1.originalDir 1
      = some (newImg 1 1 whiteColor)) ∧
    ((add_comment constGlyphs
        { originalDir := fun m => if m = 1 then some (newImg 1 1 whiteColor) else none,
          outputDir := fun m => if m = 1 then some (newImg 1 1 blackColor) else none,
          comments_store := fun _ => none } 1 ("hi".toList)).1.outputDir 2 = none) :=
  ⟨(add_comment_preserves_base constGlyphs _ 1 ("hi".toList) (newImg 1 1 whiteColor) rfl).2.1,
   ((add_comment_preserves_base constGlyphs _ 1 ("hi".toList) (newImg 1 1 whiteColor)
      rfl).2.2.1 2 (by decide)).trans rfl⟩

/-- C1: the overlay operation is a pure function of the base image and the
comment log.  The served image written by `add_comment` is exactly
`overlay_comments` of the stored base image and the full accumulated log —
two sessions agreeing on base image and log (but with arbitrary, different
served images) produce the same served image — and adding `c1` then `c2`
yields exactly `overlay_comments g B [c1, c2]`, the same image as computing
the full-log overlay directly. -/
theorem add_comment_pure_of_base_and_log (g : GlyphModel) (st st' : ServerState)
    (n : Int) (B : Img) (c1 c2 : PyStr)
    (hB : st.originalDir n = some B) (hlog : st.comments_store n = none)
    (hB' : st'.originalDir n = some B) (hlog' : st'.comments_store n = none) :
    ((add_comment g st n c1).1.outputDir n = some (overlay_comments g B [c1])) ∧
    ((add_comment g st' n c1).1.outputDir n = (add_comment g st n c1).1.outputDir n) ∧
    ((add_comment g (add_comment g st n c1).1 n c2).1.outputDir n =
      some (overlay_comments g B [c1, c2])) := by
  have h1 : (add_comment g st n c1).1.outputDir n = some (overlay_comments g B [c1]) := by
    rw [add_comment_some g st n c1 B hB]
    simp [hlog]
  have h1' : (add_comment g st' n c1).1.outputDir n = some (overlay_comments g B [c1]) := by
    rw [add_comment_some g st' n c1 B hB']
    simp [hlog']
  refine ⟨h1, h1'.trans h1.symm, ?_⟩
  have hB1 : (add_comment g st n c1).1.originalDir n = some B := by
    rw [add_comment_some g st n c1 B hB]; exact hB
  have hlog1 : (add_comment g st n c1).1.comments_store n = some [c1] := by
    rw [add_comment_some g st n c1 B hB]
    simp [hlog]
  rw [add_comment_some g (add_comment g st n c1).1 n c2 B hB1]
  rw [hlog1]
  simp

/-- Witness for C1: two sessions sharing base image and empty log but with
different served images; comments "a" then "b" on slide 1. -/
theorem add_comment_pure_of_base_and_log_witness :
    ((add_comment constGlyphs
        { originalDir := fun m => if m = 1 then some (newImg 1 1 whiteColor) else none,
          outputDir := fun _ => none,
          comments_store := fun _ => none } 1 ("a".toList)).1.outputDir 1
      = some (overlay_comments constGlyphs (newImg 1 1 whiteColor) [("a".toList)])) ∧
    ((add_comment constGlyphs
        (add_comment constGlyphs
          { originalDir := fun m => if m = 1 then some (newImg 1 1 whiteColor) else none,
            outputDir := fun _ => none,
            comments_store := fun _ => none } 1 ("a".toList)).1 1 ("b".toList)).1.outputDir 1
      = some (overlay_comments constGlyphs (newImg 1 1 whiteColor) [("a".toList), ("b".toList)])) := by
  refine ⟨?_, ?_⟩
  · exact (add_comment_pure_of_base_and_log constGlyphs
      { originalDir := fun m => if m = 1 then some (newImg 1 1 whiteColor) else none,
        outputDir := fun _ => none,
        comments_store := fun _ => none }
      { originalDir := fun m => if m = 1 then some (newImg 1 1 whiteColor) else none,
        outputDir := fun _ => none,
        comments_store := fun _ => none } 1 (newImg 1 1 whiteColor)
      ("a".toList) ("b".toList) rfl rfl rfl rfl).1
  · exact (add_comment_pure_of_base_and_log constGlyphs
      { originalDir := fun m => if m = 1 then some (newImg 1 1 whiteColor) else none,
        outputDir := fun _ => none,
        comments_store := fun _ => none }
      { originalDir := fun m => if m = 1 then some (newImg 1 1 whiteColor) else none,
        outputDir := fun _ => none,
        comments_store := fun _ => none } 1 (newImg 1 1 whiteColor)
      ("a".toList) ("b".toList) rfl rfl rfl rfl).2.2

/-- Stripping a string of whitespace characters leaves nothing. -/
theorem pyStrip_eq_nil_of_whitespace (s : PyStr)
    (h : ∀ c ∈ s, c.isWhitespace = true) : pyStrip s = [] := by
  unfold pyStrip
  rw [List.dropWhile_eq_nil_iff.mpr h]
  rfl

/-- A paragraph whose runs hold only whitespace characters has
whitespace-only joined text. -/
theorem paraText_whitespace (p : Paragraph)
    (h : ∀ r ∈ p.runs, ∀ c ∈ r.text, c.isWhitespace = true) :
    ∀ c ∈ paraText p, c.isWhitespace = true := by
  intro c hc
  unfold paraText at hc
  rcases List.mem_flatten.mp hc with ⟨l, hl, hcl⟩
  rcases List.mem_map.mp hl with ⟨r, hr, rfl⟩
  exact h r hr c hcl

/-- The paragraph loop contributes nothing when every paragraph strips to
empty text. -/
theorem frameText_loop_skip :
    ∀ (ps : List Paragraph) (acc : PyStr),
    (∀ p ∈ ps, pyStrip (paraText p) = []) →
    (ps.foldl (fun text p =>
      let pt := paraText p
      if pyStrip pt = ([] : List Char) then text else text ++ pt ++ ['\n']) acc) = acc
  | [], _, _ => rfl
  | p :: rest, acc, h => by
    have hp := h p (List.mem_cons_self p rest)
    show (rest.foldl _ (if pyStrip (paraText p) = ([] : List Char) then acc else _)) = acc
    rw [if_pos hp]
    exact frameText_loop_skip rest acc (fun q hq => h q (List.mem_cons_of_mem p hq))

/-- A text frame whose runs hold only whitespace characters yields empty
accumulated text. -/
theorem frameText_whitespace (tf : TextFrame)
    (h : ∀ p ∈ tf.paragraphs, ∀ r ∈ p.runs, ∀ c ∈ r.text, c.isWhitespace = true) :
    frameText tf = [] :=
  frameText_loop_skip tf.paragraphs [] (fun p hp =>
    pyStrip_eq_nil_of_whitespace (paraText p) (paraText_whitespace p (h p hp)))

/-- A whitespace-only text shape is a strict no-op of the shape loop. -/
theorem drawShape_whitespace_skip (g : GlyphModel) (acc : Img × List PyErr)
    (s : Shape) (h13 : s.shape_type ≠ 13) (htf : s.has_text_frame = true)
    (hws : pyStrip (frameText s.text_frame) = []) :
    drawShape g acc s = .ok acc := by
  unfold drawShape
  rw [if_neg h13, if_pos (by rw [htf]), if_pos hws]

/-- The shape loop over whitespace-only text shapes returns its
accumulator unchanged. -/
theorem drawShapesFrom_whitespace (g : GlyphModel) :
    ∀ (shapes : List Shape) (acc : Img × List PyErr),
    (∀ s ∈ shapes, s.shape_type ≠ 13 ∧ s.has_text_frame = true ∧
      pyStrip (frameText s.text_frame) = []) →
    drawShapesFrom g acc shapes = .ok acc
  | [], _, _ => rfl
  | s :: rest, acc, h => by
    have hs := h s (List.mem_cons_self s rest)
    unfold drawShapesFrom
    rw [drawShape_whitespace_skip g acc s hs.1 hs.2.1 hs.2.2]
    exact drawShapesFrom_whitespace g rest acc (fun q hq => h q (List.mem_cons_of_mem s hq))

/-- C6: a slide whose shapes are all text shapes whose runs contain only
whitespace rasterizes to exactly the same canvas as an empty slide: the
solid white canvas, with no warnings and no drawn pixels. -/
theorem whitespace_text_shapes_noop (g : GlyphModel) (slide : Slide) (w h : Nat)
    (hsh : ∀ s ∈ slide.shapes, s.shape_type ≠ 13 ∧ s.has_text_frame = true ∧
      ∀ p ∈ s.text_frame.paragraphs, ∀ r ∈ p.runs, ∀ c ∈ r.text, c.isWhitespace = true) :
    draw_slide_content g slide w h = .ok (newImg w h whiteColor, []) ∧
    draw_slide_content g ⟨[]⟩ w h = .ok (newImg w h whiteColor, []) := by
  refine ⟨?_, rfl⟩
  unfold draw_slide_content
  exact drawShapesFrom_whitespace g slide.shapes _ (fun s hs =>
    ⟨(hsh s hs).1, (hsh s hs).2.1, by
      rw [frameText_whitespace s.text_frame (hsh s hs).2.2]; rfl⟩)

/-- Witness for C6: a 3×2 slide holding a single text shape whose only run
is a space rasters to the plain white canvas. -/
theorem whitespace_text_shapes_noop_witness :
    draw_slide_content constGlyphs
      ⟨[{ shape_type := 1, image := Blob.badHeader, has_text_frame := true,
          text_frame := ⟨[⟨[⟨" ".toList⟩]⟩]⟩,
          left := 0, top := 0, width := 0, height := 0 }]⟩ 3 2
      = .ok (newImg 3 2 whiteColor, []) :=
  (whitespace_text_shapes_noop constGlyphs _ 3 2 (by decide)).1

/-- Painting one shape never changes the canvas dimensions. -/
theorem drawShape_dims (g : GlyphModel) (acc : Img × List PyErr) (s : Shape)
    (acc' : Img × List PyErr) (h : drawShape g acc s = .ok acc') :
    acc'.1.w = acc.1.w ∧ acc'.1.h = acc.1.h := by
  unfold drawShape at h
  split at h
  · split at h
    · split at h
      · cases h; exact ⟨rfl, rfl⟩
      · cases h
    · split at h
      · cases h
      · cases h; exact ⟨rfl, rfl⟩
  · split at h
    · split at h
      · cases h; exact ⟨rfl, rfl⟩
      · cases h; exact ⟨rfl, rfl⟩
    · cases h; exact ⟨rfl, rfl⟩

/-- The whole shape loop never changes the canvas dimensions. -/
theorem drawShapesFrom_dims (g : GlyphModel) :
    ∀ (shapes : List Shape) (acc acc' : Img × List PyErr),
    drawShapesFrom g acc shapes = .ok acc' →
    acc'.1.w = acc.1.w ∧ acc'.1.h = acc.1.h
  | [], acc, acc', h => by
    cases h
    exact ⟨rfl, rfl⟩
  | s :: rest, acc, acc', h => by
    unfold drawShapesFrom at h
    cases hstep : drawShape g acc s with
    | error e => rw [hstep] at h; cases h
    | ok acc1 =>
      rw [hstep] at h
      have h1 := drawShape_dims g acc s acc1 hstep
      have h2 := drawShapesFrom_dims g rest acc1 acc' h
      exact ⟨h2.1.trans h1.1, h2.2.trans h1.2⟩

/-- A successfully rasterized slide has exactly the requested canvas size. -/
theorem draw_slide_content_dims (g : GlyphModel) (slide : Slide) (w h : Nat)
    (img : Img) (ws : List PyErr)
    (hd : draw_slide_content g slide w h = .ok (img, ws)) :
    img.w = w ∧ img.h = h :=
  drawShapesFrom_dims g slide.shapes (newImg w h whiteColor, []) (img, ws) hd

/-- Full characterisation of the conversion loop on success: slots outside
`[idx, idx + slides.length)` keep their prior contents, and slot `idx + i`
of both directories holds exactly the rasterized image of slide `i`. -/
theorem convertSlides_spec (g : GlyphModel) (w h : Nat) :
    ∀ (slides : List Slide) (idx : Int) (orig out orig' out' : Int → Option Img),
    convertSlides g w h slides idx orig out = (orig', out', none) →
    ((∀ n : Int, (n < idx ∨ idx + (slides.length : Int) ≤ n) →
        orig' n = orig n ∧ out' n = out n) ∧
     (∀ i : Nat, ∀ hi : i < slides.length, ∃ img ws,
        draw_slide_content g (slides.get ⟨i, hi⟩) w h = .ok (img, ws) ∧
        orig' (idx + (i : Int)) = some img ∧ out' (idx + (i : Int)) = some img))
  | [], idx, orig, out, orig', out', hcv => by
    have h1 : orig' = orig := (congrArg (·.1) hcv).symm
    have h2 : out' = out := (congrArg (·.2.1) hcv).symm
    subst h1; subst h2
    exact ⟨fun n _ => ⟨rfl, rfl⟩, fun i hi => absurd hi (Nat.not_lt_zero i)⟩
  | s :: rest, idx, orig, out, orig', out', hcv => by
    unfold convertSlides at hcv
    cases hd : draw_slide_content g s w h with
    | error e =>
      rw [hd] at hcv
      have := congrArg (·.2.2) hcv
      simp at this
    | ok acc =>
      rw [hd] at hcv
      obtain ⟨img, ws⟩ := acc
      have ih := convertSlides_spec g w h rest (idx + 1)
        (fun n => if n = idx then some img else orig n)
        (fun n => if n = idx then some img else out n) orig' out' hcv
      have hlen : (List.length (s :: rest) : Int) = (rest.length : Int) + 1 := by
        rw [List.length_cons]; push_cast; ring
      constructor
      · intro n hn
        have hrange : n < idx + 1 ∨ (idx + 1) + (rest.length : Int) ≤ n := by
          rcases hn with hn | hn
          · exact Or.inl (by omega)
          · rw [hlen] at hn; omega
        have hne : n ≠ idx := by
          rcases hn with hn | hn
          · omega
          · rw [hlen] at hn
            have : (0 : Int) ≤ (rest.length : Int) := Int.natCast_nonneg _
            omega
        have hkeep := ih.1 n hrange
        constructor
        · rw [hkeep.1]; simp [hne]
        · rw [hkeep.2]; simp [hne]
      · intro i hi
        cases i with
        | zero =>
          refine ⟨img, ws, hd, ?_⟩
          have h0 : (idx + ((0 : Nat) : Int)) = idx := by push_cast; ring
          rw [h0]
          have hin : idx < idx + 1 ∨ (idx + 1) + (rest.length : Int) ≤ idx :=
            Or.inl (by omega)
          have hkeep := ih.1 idx hin
          constructor
          · rw [hkeep.1]; simp
          · rw [hkeep.2]; simp
        | succ j =>
          have hj : j < rest.length := Nat.lt_of_succ_lt_succ hi
          obtain ⟨img', ws', hd', ho', hu'⟩ := ih.2 j hj
          have hidx : idx + ((j + 1 : Nat) : Int) = (idx + 1) + (j : Int) := by
            push_cast; ring
          refine ⟨img', ws', hd', ?_, ?_⟩
          · rw [hidx]; exact ho'
          · rw [hidx]; exact hu'

/-- Eliminating a successful `convert_ppt` response into its parts. -/
theorem convert_ppt_ok_elim (g : GlyphModel) (st : ServerState) (fn : PyStr)
    (prs : Presentation) (st' : ServerState) (cnt : Nat) (urls : List PyStr)
    (h : convert_ppt g st fn prs = (st', ConvertResponse.ok cnt urls)) :
    cnt = prs.slides.length ∧
    urls = (List.range prs.slides.length).map slideUrlNat ∧
    st'.comments_store = (fun _ => none) ∧
    convertSlides g (prs.slide_width / 9525) (prs.slide_height / 9525) prs.slides 1
      (fun _ => none) (fun _ => none) = (st'.originalDir, st'.outputDir, none) := by
  unfold convert_ppt at h
  split at h
  · have := congrArg (·.2) h
    simp at this
  · split at h
    · have := congrArg (·.2) h
      simp at this
    · rename_i orig out heq
      have h1 : st' = ⟨orig, out, fun _ => none⟩ := (congrArg (·.1) h).symm
      have h2 := congrArg (·.2) h
      simp only [ConvertResponse.ok.injEq] at h2
      subst h1
      exact ⟨h2.1.symm, h2.2.symm, rfl, heq⟩

/-- C4: a successful Convert returns `slideCount` equal to the number of
slides together with one image URL per slide in slide order, produces
exactly one base image per slide (the directory holds an image for the
slide numbers `1..slideCount` and nothing else), and every produced image
has the same fixed size, derived once from the presentation's nominal size
by the unit conversion. -/
theorem convert_ppt_success_shape (g : GlyphModel) (st : ServerState) (fn : PyStr)
    (prs : Presentation) (st' : ServerState) (cnt : Nat) (urls : List PyStr)
    (h : convert_ppt g st fn prs = (st', ConvertResponse.ok cnt urls)) :
    cnt = prs.slides.length ∧
    urls = (List.range prs.slides.length).map slideUrlNat ∧
    urls.length = prs.slides.length ∧
    (∀ n : Int, (st'.originalDir n).isSome = true ↔ (1 ≤ n ∧ n ≤ (cnt : Int))) ∧
    (∀ n : Int, ∀ img : Img, st'.originalDir n = some img →
      img.w = prs.slide_width / 9525 ∧ img.h = prs.slide_height / 9525) := by
  obtain ⟨hcnt, hurls, hstore, hloop⟩ := convert_ppt_ok_elim g st fn prs st' cnt urls h
  have spec := convertSlides_spec g (prs.slide_width / 9525) (prs.slide_height / 9525)
    prs.slides 1 (fun _ => none) (fun _ => none) st'.originalDir st'.outputDir hloop
  have hout : ∀ n : Int, (n < 1 ∨ 1 + (prs.slides.length : Int) ≤ n) →
      st'.originalDir n = none := by
    intro n hn
    exact (spec.1 n hn).1
  have hin : ∀ n : Int, 1 ≤ n → n ≤ (prs.slides.length : Int) → ∃ img ws,
      (∃ hi : (n - 1).toNat < prs.slides.length,
        draw_slide_content g (prs.slides.get ⟨(n - 1).toNat, hi⟩)
          (prs.slide_width / 9525) (prs.slide_height / 9525) = .ok (img, ws)) ∧
      st'.originalDir n = some img := by
    intro n h1 h2
    have hi : (n - 1).toNat < prs.slides.length := by omega
    obtain ⟨img, ws, hd, ho, _⟩ := spec.2 (n - 1).toNat hi
    have hn' : (1 : Int) + (((n - 1).toNat : Nat) : Int) = n := by omega
    rw [hn'] at ho
    exact ⟨img, ws, ⟨hi, hd⟩, ho⟩
  refine ⟨hcnt, hurls, by rw [hurls]; simp, ?_, ?_⟩
  · intro n
    constructor
    · intro hsome
      by_contra hr
      rw [hcnt] at hr
      have : n < 1 ∨ 1 + (prs.slides.length : Int) ≤ n := by omega
      rw [hout n this] at hsome
      cases hsome
    · intro hr
      rw [hcnt] at hr
      obtain ⟨img, ws, _, ho⟩ := hin n hr.1 hr.2
      rw [ho]
      rfl
  · intro n img hsome
    by_cases hr : 1 ≤ n ∧ n ≤ (prs.slides.length : Int)
    · obtain ⟨img', ws, ⟨hi, hd⟩, ho⟩ := hin n hr.1 hr.2
      rw [hsome] at ho
      cases ho
      exact draw_slide_content_dims g _ _ _ _ _ hd
    · have : n < 1 ∨ 1 + (prs.slides.length : Int) ≤ n := by omega
      rw [hout n this] at hsome
      cases hsome

/-- Witness for C4: a one-slide presentation converts to one 2×1 base
image stored under slide number 1. -/
theorem convert_ppt_success_shape_witness :
    ((convert_ppt constGlyphs emptyState ("deck.pptx".toList)
        ⟨19050, 9525, [Slide.mk []]⟩).1.originalDir 1).isSome = true := by
  exact ((convert_ppt_success_shape constGlyphs emptyState ("deck.pptx".toList)
      ⟨19050, 9525, [Slide.mk []]⟩
      ⟨fun n => if n = 1 then some (newImg 2 1 whiteColor) else none,
       fun n => if n = 1 then some (newImg 2 1 whiteColor) else none,
       fun _ => none⟩ 1 ((List.range 1).map slideUrlNat) rfl).2.2.2.1 1).mpr
    (by constructor <;> decide)

/-- C7: a successful Convert wholly resets the session: afterwards
`get_comments` is empty for every slide number (even ones that had
comments before), the two directories agree everywhere, hold nothing
outside `1..slideCount`, and hold exactly the freshly rasterized image of
slide `i` at slot `1 + i`. -/
theorem convert_ppt_resets_session (g : GlyphModel) (st : ServerState) (fn : PyStr)
    (prs : Presentation) (st' : ServerState) (cnt : Nat) (urls : List PyStr)
    (h : convert_ppt g st fn prs = (st', ConvertResponse.ok cnt urls)) :
    (∀ n : Int, get_comments st' n = []) ∧
    (∀ n : Int, st'.outputDir n = st'.originalDir n) ∧
    (∀ n : Int, (n < 1 ∨ (prs.slides.length : Int) < n) →
      st'.originalDir n = none ∧ st'.outputDir n = none) ∧
    (∀ i : Nat, ∀ hi : i < prs.slides.length, ∃ img ws,
      draw_slide_content g (prs.slides.get ⟨i, hi⟩)
        (prs.slide_width / 9525) (prs.slide_height / 9525) = .ok (img, ws) ∧
      st'.originalDir (1 + (i : Int)) = some img ∧
      st'.outputDir (1 + (i : Int)) = some img) := by
  obtain ⟨hcnt, hurls, hstore, hloop⟩ := convert_ppt_ok_elim g st fn prs st' cnt urls h
  have spec := convertSlides_spec g (prs.slide_width / 9525) (prs.slide_height / 9525)
    prs.slides 1 (fun _ => none) (fun _ => none) st'.originalDir st'.outputDir hloop
  have hout : ∀ n : Int, (n < 1 ∨ (prs.slides.length : Int) < n) →
      st'.originalDir n = none ∧ st'.outputDir n = none := by
    intro n hn
    have hn' : n < 1 ∨ 1 + (prs.slides.length : Int) ≤ n := by omega
    exact spec.1 n hn'
  refine ⟨?_, ?_, hout, spec.2⟩
  · intro n
    simp [get_comments, hstore]
  · intro n
    by_cases hr : 1 ≤ n ∧ n ≤ (prs.slides.length : Int)
    · have hi : (n - 1).toNat < prs.slides.length := by omega
      obtain ⟨img, ws, _, ho, hu⟩ := spec.2 (n - 1).toNat hi
      have hn' : (1 : Int) + (((n - 1).toNat : Nat) : Int) = n := by omega
      rw [hn'] at ho hu
      rw [ho, hu]
    · have := hout n (by omega)
      rw [this.1, this.2]

/-- Witness for C7: converting over a session that already holds a comment
for slide 1 leaves `get_comments(1)` empty. -/
theorem convert_ppt_resets_session_witness :
    get_comments (convert_ppt constGlyphs
      ⟨fun _ => none, fun _ => none, fun n => if n = 1 then some [("old".toList)] else none⟩
      ("deck.pptx".toList) ⟨19050, 9525, []⟩).1 1 = [] := by
  exact (convert_ppt_resets_session constGlyphs
    ⟨fun _ => none, fun _ => none, fun n => if n = 1 then some [("old".toList)] else none⟩
    ("deck.pptx".toList) ⟨19050, 9525, []⟩
    ⟨fun _ => none, fun _ => none, fun _ => none⟩ 0 [] rfl).1 1

/-- C2 (amended): a shape whose image payload fails to decode at open time
(the `IOError` raised by `Image.open`) is skipped with a recorded warning
and the remaining shapes are still painted; but a failure surfacing during
`resize`/`paste` — such as a payload whose lazy body decode fails only when
the pixel data is first needed — is NOT isolated: it aborts the whole
slide's rasterization. -/
theorem decode_failure_isolated_resize_failure_aborts (g : GlyphModel)
    (acc : Img × List PyErr) (s : Shape) (rest : List Shape)
    (h13 : s.shape_type = 13) :
    (s.image = Blob.badHeader →
      drawShapesFrom g acc (s :: rest) =
        drawShapesFrom g (acc.1, acc.2 ++ [PyErr.osError]) rest) ∧
    (∀ i : Img, s.image = Blob.lazyBody i →
      drawShapesFrom g acc (s :: rest) = .error PyErr.osError) := by
  constructor
  · intro himg
    have hstep : drawShape g acc s = .ok (acc.1, acc.2 ++ [PyErr.osError]) := by
      unfold drawShape
      rw [if_pos h13, himg]
      rfl
    conv_lhs => unfold drawShapesFrom
    rw [hstep]
  · intro i himg
    have hstep : drawShape g acc s = .error PyErr.osError := by
      unfold drawShape
      rw [if_pos h13, himg]
      rfl
    unfold drawShapesFrom
    rw [hstep]

/-- Witness for C2 (amended): a picture shape with an undecodable header
is skipped with one recorded warning and the loop continues. -/
theorem decode_failure_isolated_witness :
    drawShapesFrom constGlyphs (newImg 2 2 whiteColor, [])
      [{ shape_type := 13, image := Blob.badHeader, has_text_frame := false,
         text_frame := ⟨[]⟩, left := 0, top := 0, width := 9525, height := 9525 }] =
      drawShapesFrom constGlyphs (newImg 2 2 whiteColor, [PyErr.osError]) [] ∧
    drawShapesFrom constGlyphs (newImg 2 2 whiteColor, [])
      [{ shape_type := 13,
         image := Blob.lazyBody (newImg 1 1 blackColor), has_text_frame := false,
         text_frame := ⟨[]⟩, left := 0, top := 0, width := 9525, height := 9525 }] =
      .error PyErr.osError :=
  ⟨(decode_failure_isolated_resize_failure_aborts constGlyphs (newImg 2 2 whiteColor, [])
      _ [] rfl).1 rfl,
   (decode_failure_isolated_resize_failure_aborts constGlyphs (newImg 2 2 whiteColor, [])
      _ [] rfl).2 (newImg 1 1 blackColor) rfl⟩

/-- Counterexample to C2 as stated: a slide with a first picture shape
whose payload body fails to decode during `resize` and a second, perfectly
drawable text shape.  The claim demands the failure be isolated to the
first shape with the remaining shapes still painted; instead the whole
slide's rasterization errors out, and a document containing this slide
aborts conversion with a 500. -/
theorem resize_failure_aborts_slide_cex :
    draw_slide_content constGlyphs
      ⟨[{ shape_type := 13, image := Blob.lazyBody (newImg 1 1 blackColor),
          has_text_frame := false, text_frame := ⟨[]⟩,
          left := 0, top := 0, width := 9525, height := 9525 },
        { shape_type := 1, image := Blob.badHeader, has_text_frame := true,
          text_frame := ⟨[⟨[⟨"Hello".toList⟩]⟩]⟩,
          left := 0, top := 0, width := 0, height := 0 }]⟩ 4 4
      = Except.error PyErr.osError ∧
    (convert_ppt constGlyphs emptyState ("deck.pptx".toList)
      ⟨38100, 38100,
       [⟨[{ shape_type := 13, image := Blob.lazyBody (newImg 1 1 blackColor),
            has_text_frame := false, text_frame := ⟨[]⟩,
            left := 0, top := 0, width := 9525, height := 9525 }]⟩]⟩).2
      = ConvertResponse.serverError PyErr.osError :=
  ⟨rfl, rfl⟩

/-- C5 (amended): every placement and size field is converted to pixels by
division by the single fixed constant 9525 before any pixel operation —
with Python floor-division semantics: `Int.fdiv` on the possibly-negative
`left`/`top` offsets and `Nat` division on the non-negative sizes.  Floor
division agrees with truncating division on non-negative operands but not
on negative ones. -/
theorem unit_conversion_floor_div_9525 (g : GlyphModel)
    (acc : Img × List PyErr) (s : Shape) :
    (∀ i : Img, s.shape_type = 13 → s.image = Blob.decodable i →
      drawShape g acc s = .ok (paste acc.1
        (resizeImg i (s.width / 9525) (s.height / 9525))
        (Int.fdiv s.left 9525, Int.fdiv s.top 9525), acc.2)) ∧
    (s.shape_type ≠ 13 → s.has_text_frame = true →
      pyStrip (frameText s.text_frame) ≠ ([] : List Char) →
      drawShape g acc s = .ok (drawText g acc.1
        (Int.fdiv s.left 9525, Int.fdiv s.top 9525)
        (frameText s.text_frame) blackColor, acc.2)) ∧
    (∀ a : Int, 0 ≤ a → Int.fdiv a 9525 = Int.tdiv a 9525) := by
  refine ⟨?_, ?_, fun a ha => Int.fdiv_eq_tdiv ha (by omega)⟩
  · intro i h13 himg
    unfold drawShape
    rw [if_pos h13, himg]
    rfl
  · intro h13 htf hws
    unfold drawShape
    rw [if_neg h13, if_pos (by rw [htf]), if_neg hws]

/-- Witness for C5 (amended) at non-negative offsets: a decodable 1×1
picture at EMU rect (19050, 9525, 9525, 9525) is pasted at pixel (2, 1)
with pixel size (1, 1). -/
theorem unit_conversion_floor_div_9525_witness :
    drawShape constGlyphs (newImg 4 4 whiteColor, [])
      { shape_type := 13, image := Blob.decodable (newImg 1 1 blackColor),
        has_text_frame := false, text_frame := ⟨[]⟩,
        left := 19050, top := 9525, width := 9525, height := 9525 }
      = .ok (paste (newImg 4 4 whiteColor)
          (resizeImg (newImg 1 1 blackColor) 1 1) (2, 1), []) :=
  (unit_conversion_floor_div_9525 constGlyphs (newImg 4 4 whiteColor, [])
    { shape_type := 13, image := Blob.decodable (newImg 1 1 blackColor),
      has_text_frame := false, text_frame := ⟨[]⟩,
      left := 19050, top := 9525, width := 9525, height := 9525 }).1
    (newImg 1 1 blackColor) rfl rfl

/-- Counterexample to C5 as stated: at `left = -9526` EMU the code pastes
at pixel x = -9526 // 9525 = -2 (Python floor division), whereas the
claimed truncating integer division gives -1. -/
theorem shape_left_floor_div_cex :
    drawShape constGlyphs (newImg 4 4 whiteColor, [])
      { shape_type := 13, image := Blob.decodable (newImg 1 1 blackColor),
        has_text_frame := false, text_frame := ⟨[]⟩,
        left := -9526, top := 0, width := 9525, height := 9525 }
      = .ok (paste (newImg 4 4 whiteColor)
          (resizeImg (newImg 1 1 blackColor) 1 1) (-2, 0), []) ∧
    Int.tdiv (-9526) 9525 = -1 ∧ ((-2 : Int) ≠ -1) :=
  ⟨rfl, by decide, by decide⟩

/-- The lowercased filename ends in `t` exactly when the filename itself
ends in some suffix whose lowercasing is `t`. -/
theorem pyEndsWith_lower (fn t : PyStr) :
    pyEndsWith (pyLower fn) t = true ↔ ∃ u, u <:+ fn ∧ pyLower u = t := by
  unfold pyEndsWith pyLower
  rw [List.isSuffixOf_iff_suffix]
  constructor
  · rintro ⟨pre, hpre⟩
    rcases List.map_eq_append_iff.mp hpre.symm with ⟨l₁, l₂, hsplit, _, hmap₂⟩
    exact ⟨l₂, ⟨l₁, hsplit.symm⟩, hmap₂⟩
  · rintro ⟨u, ⟨p, hp⟩, hmap⟩
    exact ⟨List.map Char.toLower p, by rw [← hmap, ← List.map_append, hp]⟩

/-- C10: the Convert extension check is case-insensitive: the uploaded
filename is lowercased before testing the ".pptx" suffix, so a filename
ending in any case variant of ".pptx" never takes the 400 rejection
branch, while a filename ending in no such variant makes Convert return
400 with the session state untouched. -/
theorem convert_ext_check_case_insensitive (g : GlyphModel) (st : ServerState)
    (fn : PyStr) (prs : Presentation) :
    ((∃ u, u <:+ fn ∧ pyLower u = ".pptx".toList) →
      (convert_ppt g st fn prs).2 ≠ ConvertResponse.badRequest) ∧
    ((¬ ∃ u, u <:+ fn ∧ pyLower u = ".pptx".toList) →
      convert_ppt g st fn prs = (st, ConvertResponse.badRequest)) := by
  constructor
  · intro hex
    have hb : pyEndsWith (pyLower fn) (".pptx".toList) = true :=
      (pyEndsWith_lower fn (".pptx".toList)).mpr hex
    unfold convert_ppt
    rw [hb]
    simp only [Bool.true_eq_false, if_false]
    split
    · intro hcon
      cases hcon
    · intro hcon
      cases hcon
  · intro hnex
    have hb : pyEndsWith (pyLower fn) (".pptx".toList) = false := by
      cases hbe : pyEndsWith (pyLower fn) (".pptx".toList) with
      | false => rfl
      | true => exact absurd ((pyEndsWith_lower fn (".pptx".toList)).mp hbe) hnex
    unfold convert_ppt
    rw [hb, if_pos rfl]

/-- Witness for C10: "a.PPTX" passes the check; "a.ppt" is rejected with
the state untouched. -/
theorem convert_ext_check_case_insensitive_witness :
    ((convert_ppt constGlyphs emptyState ("a.PPTX".toList) ⟨9525, 9525, []⟩).2
      ≠ ConvertResponse.badRequest) ∧
    (convert_ppt constGlyphs emptyState ("a.ppt".toList) ⟨9525, 9525, []⟩
      = (emptyState, ConvertResponse.badRequest)) := by
  constructor
  · exact (convert_ext_check_case_insensitive constGlyphs emptyState
      ("a.PPTX".toList) ⟨9525, 9525, []⟩).1
      ⟨".PPTX".toList, ⟨"a".toList, by decide⟩, by decide⟩
  · refine (convert_ext_check_case_insensitive constGlyphs emptyState
      ("a.ppt".toList) ⟨9525, 9525, []⟩).2 ?_
    rintro ⟨u, hu, hmap⟩
    have hb : pyEndsWith (pyLower ("a.ppt".toList)) (".pptx".toList) = true :=
      (pyEndsWith_lower ("a.ppt".toList) (".pptx".toList)).mpr ⟨u, hu, hmap⟩
    exact absurd hb (by decide)
